import Mathlib

/-!
# Verification of the sql-migrate-js migration engine

Shallow embedding of the migration resolution and execution engine of
`sql-migrate-js` (src/migrate.js, src/migrate.up.js, src/migrate.down.js,
src/migrate.utils.js, src/migrate.setup.js), together with proofs about the
plan resolvers and the transactional execution engine.

Pure JavaScript string manipulation is embedded over `List Char`; the
PostgreSQL connection is embedded as explicit state (committed database,
optional open transaction, and the log of queries issued), with the
transaction-control statements `BEGIN`/`COMMIT`/`ROLLBACK` given PostgreSQL
semantics (a nested `BEGIN` inside an open transaction is a warning and a
no-op; `COMMIT` commits the currently open transaction).
-/

namespace SqlMigrate

/-! ## JavaScript string primitives -/

/-- JS `String.prototype.replace(pat, rep)` with a *string* pattern replaces
only the FIRST occurrence of `pat` (all patterns used by the program are
nonempty).  If `pat` does not occur, the string is returned unchanged. -/
def replaceFirstChars (pat rep : List Char) : List Char → List Char
  | [] => []
  | c :: rest =>
    if pat.isPrefixOf (c :: rest) then rep ++ (c :: rest).drop pat.length
    else c :: replaceFirstChars pat rep rest

/-- `s.replace(pat, rep)` on strings (first occurrence only). -/
def jsReplace (s pat rep : String) : String :=
  ⟨replaceFirstChars pat.data rep.data s.data⟩

/-- Number of (possibly overlapping) occurrences of `pat` in a character list;
used to state "occurs exactly once" / "does not occur" side conditions. -/
def countSub (pat : List Char) : List Char → Nat
  | [] => 0
  | c :: rest => (if pat.isPrefixOf (c :: rest) then 1 else 0) + countSub pat rest

/-- JS `s.endsWith(suffix)`. -/
def jsEndsWith (s suffix : String) : Bool :=
  List.isSuffixOf suffix.data s.data

/-- JS `a <= b` on strings: lexicographic comparison of UTF-16 code units,
which on the ASCII filenames this tool handles is code-point comparison. -/
def jsLeChars : List Char → List Char → Bool
  | [], _ => true
  | _ :: _, [] => false
  | a :: as, b :: bs =>
    if a.toNat < b.toNat then true
    else if b.toNat < a.toNat then false
    else jsLeChars as bs

/-- JS string comparison `a <= b` (also used to model `a.localeCompare(b)`,
whose default-locale collation agrees with code-point order on the
digit/lowercase/hyphen filenames the tool generates). -/
def jsLeString (a b : String) : Bool := jsLeChars a.data b.data

/-- JS `migration.split("_")[0]`: the prefix before the first underscore
(the whole string when there is no underscore). -/
def keyOf (s : String) : String := ⟨s.data.takeWhile (fun c => c != '_')⟩

/-- JS `Number(s)`, restricted to the timestamp-key domain of decimal-digit
strings: a string of digits (including `""`, which JS coerces to `0`) maps to
its numeric value; any other string maps to `none`, standing for NaN.  This is
exact w.r.t. IEEE doubles for digit strings below 2^53; the keys this tool
generates are 14 digits, well inside that range. -/
def jsNumber (s : String) : Option Nat :=
  if s.data.all (fun c => c.isDigit) then
    some (s.data.foldl (fun n c => 10 * n + (c.toNat - 48)) 0)
  else none

/-- JS `Number(a) >= Number(b)`: any comparison involving NaN is false. -/
def jsNumGe (a b : String) : Bool :=
  match jsNumber a, jsNumber b with
  | some x, some y => y ≤ x
  | _, _ => false

/-- JS truthiness of an optional string parameter: an absent (`undefined`)
argument and the empty string are falsy, every other string is truthy. -/
def truthyStr : Option String → Bool
  | none => false
  | some s => s != ""

/-- The stable ascending sort used to model JS `Array.prototype.sort(cmp)`
(V8's sort is stable; insertion sort is stable, and for the total transitive
comparators used here every stable sort produces the same list). -/
def jsSortBy (le : String → String → Bool) (l : List String) : List String :=
  List.insertionSort (fun a b => le a b = true) l

/-! ## Plan resolver: up (src/migrate.up.js) -/

def APPLY_MIGRATION_FILE_SUFFIX : String := ".apply.sql"

/-- `filterBeforeOrAtTimestamp` (src/migrate.up.js):
`migration.split("_")[0] <= migrationTimestamp` — a JS string comparison. -/
def filterBeforeOrAtTimestamp (migration migrationTimestamp : String) : Bool :=
  jsLeString (keyOf migration) migrationTimestamp

/-- `composePredicates` (src/functional.js, the repository's bundled
function-composition utility library, imported by src/migrate.up.js under its
package name and tested by src/functional.test.js):
`(...predicates) => (input) => predicates.every((pred) => pred(input))` —
the composed predicate holds iff every supplied predicate holds. -/
def composePredicates (preds : List (String → Bool)) (m : String) : Bool :=
  preds.all (fun p => p m)

/-- `determineMigrationsToApply` (src/migrate.up.js): filter the catalog by
the conjunction of (ends with the apply suffix), (not already applied), and —
only when the optional boundary argument is truthy — (key ≤ boundary).  The JS
builds a `Set` of the applied filenames; membership in that set is list
membership. -/
def determineMigrationsToApply (allMigrations appliedMigrations : List String)
    (migrationTimestamp : Option String) : List String :=
  let predicates : List (String → Bool) :=
    [fun migration => jsEndsWith migration APPLY_MIGRATION_FILE_SUFFIX,
     fun migration => !(appliedMigrations.contains migration)] ++
    (if truthyStr migrationTimestamp then
      [fun migration => filterBeforeOrAtTimestamp migration (migrationTimestamp.getD "")]
     else [])
  allMigrations.filter (composePredicates predicates)

/-- The sort `migrationsToApply.sort((a, b) => a.localeCompare(b))` performed
by `applyMigrations` (src/migrate.up.js) before applying: ascending by
filename. -/
def jsSortStrings (l : List String) : List String :=
  jsSortBy jsLeString l

/-! ## Plan resolver: down (src/migrate.down.js) -/

def REVERT_MIGRATION_FILE_SUFFIX : String := ".revert.sql"

/-- The error message thrown by the revert-suffix self-check. -/
def invalidRevertMsg : String :=
  "Invalid migration file. The filename must end with '.revert.sql'."

/-- `filterAfterOrAtTimestamp` (src/migrate.down.js):
`Number(migration.split("_")[0]) >= Number(migrationTimestamp)` — a NUMERIC
comparison of key and boundary, not a string comparison. -/
def filterAfterOrAtTimestamp (migration migrationTimestamp : String) : Bool :=
  jsNumGe (keyOf migration) migrationTimestamp

/-- `appliedToRevertMigration` (src/migrate.down.js):
`filename.replace(".apply.", ".revert.")` — first occurrence only. -/
def appliedToRevertMigration (filename : String) : String :=
  jsReplace filename ".apply." ".revert."

/-- `determineMigrationsToRevert` (src/migrate.down.js).  The source runs
`forEach` over ALL filenames and throws at the first one failing the suffix
check (before any boundary filtering); since every failure throws the same
message, that is: error iff some filename lacks the suffix.  Otherwise the
boundary filter is applied only when the boundary argument is truthy. -/
def determineMigrationsToRevert (revertMigrations : List String)
    (migrationTimestamp : Option String) : Except String (List String) :=
  if revertMigrations.all (fun filename => jsEndsWith filename ".revert.sql") then
    .ok (if truthyStr migrationTimestamp then
          revertMigrations.filter
            (fun migration =>
              filterAfterOrAtTimestamp migration (migrationTimestamp.getD ""))
         else revertMigrations)
  else .error invalidRevertMsg

/-- `sortMigrationsInDescendingOrder` (src/migrate.down.js): JS sort with
comparator `timestampB.localeCompare(timestampA)` on the `split("_")[0]`
keys — a stable sort putting larger timestamp keys first. -/
def sortMigrationsInDescendingOrder (migrations : List String) : List String :=
  jsSortBy (fun a b => jsLeString (keyOf b) (keyOf a)) migrations

/-! ## The connection model (pg client + PostgreSQL semantics)

The statements the engine issues are modelled exactly; an arbitrary migration
body is interpreted by the environment's `runBody`, which may fail (a SQL
error).  The whitespace of the multi-line SQL template literals of the source
is normalized in the corresponding constants below. -/

/-- Contents of the database, over an abstract schema-state type `σ`:
the bookkeeping table (`none` when the `migrations` table does not exist,
otherwise the `filename` column of its rows in insertion order) plus the rest
of the schema. -/
structure Db (σ : Type) where
  migrationsTable : Option (List String)
  schemaState : σ
  deriving DecidableEq

/-- A pg client connection: the committed database; the open transaction
(`none` = idle/autocommit, `some (some d)` = open transaction with working
state `d`, `some none` = transaction aborted by an error, ignoring statements
until COMMIT/ROLLBACK); and the log of `client.query` calls issued so far. -/
structure Conn (σ : Type) where
  db : Db σ
  txn : Option (Option (Db σ))
  log : List (String × List String)
  deriving DecidableEq

/-- The external environment: the migrations directory listing, the migration
files on disk, and the effect of an arbitrary SQL script (a migration body) on
the database contents; `runBody sql d = none` models the script failing with a
SQL error. -/
structure Env (σ : Type) where
  dir : List String
  files : String → Option String
  runBody : String → Db σ → Option (Db σ)

/-- The connection-state monad: errors are thrown JS-style, and the connection
state (including its aborted-transaction flag and query log) survives a throw,
as it does on a live connection. -/
abbrev DbM (σ : Type) := EStateM String (Conn σ)

def sqlSelectApplied : String := "SELECT filename FROM migrations ORDER BY filename"

def sqlInsert : String := "INSERT INTO migrations (filename) VALUES ($1)"

def sqlDelete : String := "DELETE FROM migrations WHERE filename = $1"

def sqlTableExists : String :=
  "SELECT EXISTS (SELECT FROM information_schema.tables WHERE table_schema = 'public' AND table_name = 'migrations');"

def sqlCreateTable : String :=
  "CREATE TABLE migrations (id SERIAL PRIMARY KEY, filename VARCHAR(255) NOT NULL, applied_at TIMESTAMP NOT NULL DEFAULT NOW());"

/-- Effect of one non-transaction-control SQL statement on database contents:
the new contents plus the result rows (the `filename` column), or an error.
`migrations.filename` is `VARCHAR(255)`, so inserting a longer filename is a
SQL error, as is touching the `migrations` table when it does not exist. -/
def runStatement (env : Env σ) (sql : String) (params : List String) (d : Db σ) :
    Except String (Db σ × List String) :=
  if sql == sqlSelectApplied then
    match d.migrationsTable with
    | some rows => .ok (d, jsSortBy jsLeString rows)
    | none => .error "relation migrations does not exist"
  else if sql == sqlInsert then
    match d.migrationsTable with
    | some rows =>
      if (params.headD "").length ≤ 255 then
        .ok ({ d with migrationsTable := some (rows ++ [params.headD ""]) }, [])
      else .error "value too long for type character varying(255)"
    | none => .error "relation migrations does not exist"
  else if sql == sqlDelete then
    match d.migrationsTable with
    | some rows =>
      .ok ({ d with migrationsTable := some (rows.filter (fun r => r != params.headD "")) }, [])
    | none => .error "relation migrations does not exist"
  else if sql == sqlTableExists then
    .ok (d, [if d.migrationsTable.isSome then "t" else "f"])
  else if sql == sqlCreateTable then
    match d.migrationsTable with
    | some _ => .error "relation migrations already exists"
    | none => .ok ({ d with migrationsTable := some [] }, [])
  else
    match env.runBody sql d with
    | some d2 => .ok (d2, [])
    | none => .error "SQL error in migration body"

/-- One `client.query(sql, params)` call, with PostgreSQL transaction
semantics: `BEGIN` inside an open transaction is a warning and a no-op (also
when the transaction is aborted); `COMMIT` commits the open transaction (in an
aborted transaction it ends it as a rollback, without raising); `ROLLBACK`
discards the open transaction (a warning and a no-op outside one).  Any other
statement fails immediately inside an aborted transaction; otherwise it runs
on the working state, and an error aborts an open transaction (in autocommit
mode a failed statement leaves the committed state untouched).  Every call is
appended to the log.  (`executeInTransaction` issues `"BEGIN"`, `executeSQL`
issues `"BEGIN;"`; both spellings are transaction control.) -/
def query (env : Env σ) (sql : String) (params : List String := []) :
    DbM σ (List String) := fun c =>
  let c := { c with log := c.log ++ [(sql, params)] }
  if sql == "BEGIN" || sql == "BEGIN;" then
    match c.txn with
    | none => .ok [] { c with txn := some (some c.db) }
    | some _ => .ok [] c
  else if sql == "COMMIT" || sql == "COMMIT;" then
    match c.txn with
    | none => .ok [] c
    | some (some d) => .ok [] { c with db := d, txn := none }
    | some none => .ok [] { c with txn := none }
  else if sql == "ROLLBACK" || sql == "ROLLBACK;" then
    .ok [] { c with txn := none }
  else
    match c.txn with
    | some none =>
      .error "current transaction is aborted, commands ignored until end of transaction block" c
    | some (some d) =>
      match runStatement env sql params d with
      | .ok (d2, rows) => .ok rows { c with txn := some (some d2) }
      | .error e => .error e { c with txn := some none }
    | none =>
      match runStatement env sql params c.db with
      | .ok (d2, rows) => .ok rows { c with db := d2 }
      | .error e => .error e c

/-! ## Execution primitives (src/migrate.utils.js) -/

/-- `getAllMigrations` (src/migrate.utils.js): list the migrations directory. -/
def getAllMigrations (env : Env σ) : DbM σ (List String) :=
  pure env.dir

/-- `readMigrationContent` (src/migrate.utils.js): read a migration file,
failing with ENOENT when absent.  A file read issues no database query. -/
def readMigrationContent (env : Env σ) (filename : String) : DbM σ String :=
  match env.files filename with
  | some content => pure content
  | none => throw ("ENOENT: no such file or directory, open " ++ filename)

/-- `executeInTransaction` (src/migrate.utils.js): `BEGIN`, run the action,
`COMMIT`; on any error, `ROLLBACK` and rethrow. -/
def executeInTransaction (env : Env σ) (action : DbM σ Unit) : DbM σ Unit :=
  tryCatch
    (do
      let _ ← query env "BEGIN"
      action
      let _ ← query env "COMMIT")
    (fun error => do
      let _ ← query env "ROLLBACK"
      throw error)

/-- `executeSQL` (src/migrate.utils.js): wraps the single statement in its OWN
`BEGIN;`/`COMMIT;` pair, rolling back and rethrowing on error. -/
def executeSQL (env : Env σ) (sql : String) (params : List String := []) :
    DbM σ (List String) :=
  tryCatch
    (do
      let _ ← query env "BEGIN;"
      let result ← query env sql params
      let _ ← query env "COMMIT;"
      pure result)
    (fun error => do
      let _ ← query env "ROLLBACK;"
      throw error)

/-! ## Execution engine: up (src/migrate.up.js) -/

/-- `getAppliedMigrations` (src/migrate.up.js); its JS catch logs and rethrows
the same error, the identity on the outcome.  The row objects are mapped to
their `filename` field, which is what the modelled query already returns. -/
def getAppliedMigrations (env : Env σ) : DbM σ (List String) :=
  query env sqlSelectApplied

/-- `applyMigration` (src/migrate.up.js): inside `executeInTransaction`, read
the body, run it via `executeSQL`, then insert the bookkeeping row via a
second `executeSQL`.  In the `!client || !filename` guard an empty filename is
falsy (the client is always supplied in this model). -/
def applyMigration (env : Env σ) (filename : String) : DbM σ Unit := do
  if filename = "" then throw "Client or filename is not provided."
  executeInTransaction env (do
    let migrationContent ← readMigrationContent env filename
    let _ ← executeSQL env migrationContent
    let _ ← executeSQL env sqlInsert [filename]
    pure ())

/-- `applyMigrations` (src/migrate.up.js): sort the plan ascending by
`localeCompare`, then apply sequentially; the first failure propagates and
halts the loop. -/
def applyMigrations (env : Env σ) (migrationsToApply : List String) : DbM σ Unit :=
  (jsSortStrings migrationsToApply).forM (fun migration => applyMigration env migration)

/-- `handleUp` (src/migrate.up.js); its catch logs and rethrows, the identity
on the outcome.  On an empty plan it reports and returns. -/
def handleUp (env : Env σ) (migrationTimestamp : Option String) : DbM σ Unit := do
  let allMigrations ← getAllMigrations env
  let appliedMigrations ← getAppliedMigrations env
  let migrationsToApply :=
    determineMigrationsToApply allMigrations appliedMigrations migrationTimestamp
  if migrationsToApply.length = 0 then
    pure ()
  else
    applyMigrations env migrationsToApply

/-! ## Execution engine: down (src/migrate.down.js) -/

/-- `revertMigration` (src/migrate.down.js): validate the suffix (throwing
BEFORE any query is issued), read the revert body, run it via `executeSQL`
(its own transaction), then delete the bookkeeping row — keyed by the
filename with `.revert.sql` replaced by `.apply.sql` — via a SECOND, separate
`executeSQL` transaction. -/
def revertMigration (env : Env σ) (filename : String) : DbM σ Unit := do
  if jsEndsWith filename REVERT_MIGRATION_FILE_SUFFIX then
    let migrationContent ← readMigrationContent env filename
    let _ ← executeSQL env migrationContent
    let applyFilename :=
      jsReplace filename REVERT_MIGRATION_FILE_SUFFIX APPLY_MIGRATION_FILE_SUFFIX
    let _ ← executeSQL env sqlDelete [applyFilename]
    pure ()
  else
    throw invalidRevertMsg

/-- `handleDown` (src/migrate.down.js); its catch logs and rethrows, the
identity on the outcome.  The throw inside `determineMigrationsToRevert`
becomes a monadic throw here. -/
def handleDown (env : Env σ) (migrationTimestamp : Option String) : DbM σ Unit := do
  let appliedMigrations ← getAppliedMigrations env
  let sortedAppliedMigrations := sortMigrationsInDescendingOrder appliedMigrations
  let allRevertMigrations := sortedAppliedMigrations.map appliedToRevertMigration
  match determineMigrationsToRevert allRevertMigrations migrationTimestamp with
  | .error e => throw e
  | .ok migrationsToRevert =>
    if migrationsToRevert.length = 0 then
      pure ()
    else
      migrationsToRevert.forM (fun migration => revertMigration env migration)

/-! ## Bootstrap (src/migrate.setup.js) -/

/-- `doesMigrationsTableExist` (src/migrate.setup.js): a read-only
information_schema probe. -/
def doesMigrationsTableExist (env : Env σ) : DbM σ Bool := do
  let rows ← query env sqlTableExists
  pure (rows.headD "f" == "t")

/-- `createMigrationsTable` (src/migrate.setup.js): create the bookkeeping
table through `executeSQL`. -/
def createMigrationsTable (env : Env σ) : DbM σ (List String) :=
  executeSQL env sqlCreateTable

/-- `handleSetup` (src/migrate.setup.js): skip when the table already exists,
create it otherwise. -/
def handleSetup (env : Env σ) : DbM σ Unit := do
  if (← doesMigrationsTableExist env) then
    pure ()
  else
    let _ ← createMigrationsTable env
    pure ()

/-! ## CLI dispatch (src/migrate.js) -/

/-- `main` (src/migrate.js): destructure `process.argv.slice(2)` into
`[command, option, migrationTimestamp]` and dispatch.  Note two quirks of the
source, modelled faithfully: the `up` branch passes `option` where `handleUp`
expects its boundary (`handleUp` has only two parameters, so the extra third
argument is ignored), and the `down` branch calls `handleDown(client)` with NO
second argument, so `handleDown` receives `undefined` as its boundary.
`generate` only scaffolds files (no database effect; outside the modelled
core).  Unknown commands only log.  Errors are caught and logged, not
rethrown. -/
def mainRun (env : Env σ) (argv : List String) : DbM σ Unit :=
  let command := argv.get? 0
  let option := argv.get? 1
  tryCatch
    (match command with
     | some "setup" => handleSetup env
     | some "generate" => pure ()
     | some "up" => handleUp env option
     | some "down" => handleDown env none
     | _ => pure ())
    (fun _ => pure ())

/-- The final connection state of a run, whether it succeeded or threw. -/
def finalConn (r : EStateM.Result String (Conn σ) α) : Conn σ :=
  match r with
  | .ok _ c => c
  | .error _ c => c

/-- Did the run throw? -/
def isError (r : EStateM.Result String (Conn σ) α) : Bool :=
  match r with
  | .ok _ _ => false
  | .error _ _ => true

/-- A connection in its initial state: no open transaction, empty log. -/
def freshConn (d : Db σ) : Conn σ :=
  { db := d, txn := none, log := [] }

/-! ## Concrete scenarios used as evidence for individual claims

In these scenarios the abstract schema state is a `List String` recording, in
order, the migration bodies whose effects have been committed; every body
succeeds, appending itself to that record. -/

/-- A 256-character apply filename — one character longer than the
`VARCHAR(255)` `filename` column, so its bookkeeping INSERT fails while a
migration body itself runs fine. -/
def longApplyName : String := String.mk (List.replicate 246 'a') ++ ".apply.sql"

/-- Environment for the C1 scenario: the catalog holds one apply file with an
over-long name; its SQL body succeeds. -/
def envC1 : Env (List String) :=
  { dir := [longApplyName]
  , files := fun f => if f == longApplyName then some "ALTER TABLE t ADD COLUMN c INT" else none
  , runBody := fun sql d => some { d with schemaState := d.schemaState ++ [sql] } }

/-- Environment for the C2 scenario: one revert file whose body succeeds; the
database has no `migrations` table, so the bookkeeping DELETE fails. -/
def envC2 : Env (List String) :=
  { dir := []
  , files := fun f => if f == "20230101000000_x.revert.sql" then some "DROP TABLE t" else none
  , runBody := fun sql d => some { d with schemaState := d.schemaState ++ [sql] } }

/-- Environment for the C5 scenario: the revert body for the one applied unit
exists and succeeds. -/
def envC5 : Env (List String) :=
  { dir := []
  , files := fun f => if f == "20220101000000_old.revert.sql" then some "DROP TABLE old" else none
  , runBody := fun sql d => some { d with schemaState := d.schemaState ++ [sql] } }

/-- Environment for the C7 witness (never consulted: the suffix check throws
before any file read or query). -/
def envC7 : Env (List String) :=
  { dir := [], files := fun _ => none, runBody := fun _ d => some d }

/-- Connection for the C7 witness. -/
def connC7 : Conn (List String) :=
  freshConn { migrationsTable := some ["20230101000000_x.apply.sql"], schemaState := [] }

/-- A well-formed apply filename as this tool generates them
(`{key}_{slug}.apply.sql`): it ends in `.apply.sql`, the segment `.apply.`
occurs only there, the segment `.revert.` does not occur at all, and an
underscore separates the timestamp key from the slug. -/
def wellFormedApplyName (f : String) : Prop :=
  jsEndsWith f ".apply.sql" = true ∧
  countSub ".apply.".data f.data = 1 ∧
  countSub ".revert.".data f.data = 0 ∧
  f.data.contains '_' = true

end SqlMigrate

namespace SqlMigrate

/-! ## Helper lemmas: the JS string order -/

theorem jsLeChars_total : ∀ as bs, jsLeChars as bs = true ∨ jsLeChars bs as = true := by
  intro as
  induction as with
  | nil => intro bs; left; rfl
  | cons a as ih =>
    intro bs
    cases bs with
    | nil => right; rfl
    | cons b bs =>
      simp only [jsLeChars]
      rcases Nat.lt_trichotomy a.toNat b.toNat with h | h | h
      · left; simp [h, Nat.not_lt.mpr (Nat.le_of_lt h)]
      · have h' : ¬ a.toNat < b.toNat := by omega
        have h'' : ¬ b.toNat < a.toNat := by omega
        simpa [h', h''] using ih bs
      · right; simp [h, Nat.not_lt.mpr (Nat.le_of_lt h)]

theorem jsLeChars_trans :
    ∀ as bs cs, jsLeChars as bs = true → jsLeChars bs cs = true → jsLeChars as cs = true := by
  intro as
  induction as with
  | nil => intro bs cs _ _; rfl
  | cons a as ih =>
    intro bs cs h1 h2
    cases bs with
    | nil => simp [jsLeChars] at h1
    | cons b bs =>
      cases cs with
      | nil => simp [jsLeChars] at h2
      | cons c cs =>
        simp only [jsLeChars] at h1 h2 ⊢
        rcases Nat.lt_trichotomy a.toNat c.toNat with hac | hac | hac
        · rw [if_pos hac]
        · rw [if_neg (by omega : ¬ a.toNat < c.toNat),
            if_neg (by omega : ¬ c.toNat < a.toNat)]
          rcases Nat.lt_trichotomy a.toNat b.toNat with hab | hab | hab
          · rw [if_neg (by omega : ¬ b.toNat < c.toNat),
              if_pos (by omega : c.toNat < b.toNat)] at h2
            simp at h2
          · rw [if_neg (by omega : ¬ a.toNat < b.toNat),
              if_neg (by omega : ¬ b.toNat < a.toNat)] at h1
            rw [if_neg (by omega : ¬ b.toNat < c.toNat),
              if_neg (by omega : ¬ c.toNat < b.toNat)] at h2
            exact ih bs cs h1 h2
          · rw [if_neg (by omega : ¬ a.toNat < b.toNat),
              if_pos (by omega : b.toNat < a.toNat)] at h1
            simp at h1
        · -- a > c: h1 and h2 are jointly contradictory
          rcases Nat.lt_trichotomy a.toNat b.toNat with hab | hab | hab
          · rw [if_neg (by omega : ¬ b.toNat < c.toNat),
              if_pos (by omega : c.toNat < b.toNat)] at h2
            simp at h2
          · rw [if_neg (by omega : ¬ b.toNat < c.toNat),
              if_pos (by omega : c.toNat < b.toNat)] at h2
            simp at h2
          · rw [if_neg (by omega : ¬ a.toNat < b.toNat),
              if_pos (by omega : b.toNat < a.toNat)] at h1
            simp at h1

theorem jsLeString_total (a b : String) : jsLeString a b = true ∨ jsLeString b a = true :=
  jsLeChars_total a.data b.data

theorem jsLeString_trans {a b c : String} (h1 : jsLeString a b = true)
    (h2 : jsLeString b c = true) : jsLeString a c = true :=
  jsLeChars_trans a.data b.data c.data h1 h2

/-- `jsSortBy le` really sorts whenever the comparator is (the characteristic
function of) a total transitive relation. -/
theorem jsSortBy_pairwise (le : String → String → Bool)
    (htot : ∀ a b, le a b = true ∨ le b a = true)
    (htrans : ∀ {a b c}, le a b = true → le b c = true → le a c = true)
    (l : List String) :
    List.Pairwise (fun a b => le a b = true) (jsSortBy le l) := by
  haveI : IsTotal String (fun a b => le a b = true) := ⟨htot⟩
  haveI : IsTrans String (fun a b => le a b = true) := ⟨fun _ _ _ => htrans⟩
  exact List.sorted_insertionSort _ l

theorem jsSortBy_perm (le : String → String → Bool) (l : List String) :
    List.Perm (jsSortBy le l) l :=
  List.perm_insertionSort _ l

/-! ## C3: soundness of the up-plan resolver -/

/-- C3: for every catalog list, applied list and optional boundary, every
filename returned by `determineMigrationsToApply` is not in the applied list,
ends with `.apply.sql`, and — whenever a (truthy, i.e. nonempty) boundary is
given — has timestamp key ≤ the boundary under JS string comparison. -/
theorem C3_up_plan_sound (allMigrations appliedMigrations : List String)
    (migrationTimestamp : Option String) (f : String)
    (hf : f ∈ determineMigrationsToApply allMigrations appliedMigrations migrationTimestamp) :
    f ∉ appliedMigrations ∧ jsEndsWith f APPLY_MIGRATION_FILE_SUFFIX = true ∧
      ∀ b, migrationTimestamp = some b → b ≠ "" → jsLeString (keyOf f) b = true := by
  unfold determineMigrationsToApply at hf
  rw [List.mem_filter] at hf
  obtain ⟨-, hp⟩ := hf
  unfold composePredicates at hp
  by_cases ht : truthyStr migrationTimestamp = true
  · rw [if_pos ht] at hp
    simp only [List.all_append, List.all_cons, List.all_nil, Bool.and_eq_true,
      Bool.and_true, Bool.not_eq_true'] at hp
    obtain ⟨⟨hsuf, hnotapp⟩, hbd⟩ := hp
    refine ⟨?_, hsuf, ?_⟩
    · intro hmem
      rw [List.contains, List.elem_iff.mpr hmem] at hnotapp
      cases hnotapp
    · intro b hb _
      subst hb
      simpa [filterBeforeOrAtTimestamp] using hbd
  · rw [if_neg ht] at hp
    simp only [List.all_append, List.all_cons, List.all_nil, Bool.and_eq_true,
      Bool.and_true, Bool.not_eq_true'] at hp
    obtain ⟨hsuf, hnotapp⟩ := hp
    refine ⟨?_, hsuf, ?_⟩
    · intro hmem
      rw [List.contains, List.elem_iff.mpr hmem] at hnotapp
      cases hnotapp
    · intro b hb hbne
      subst hb
      exact absurd (by simp [truthyStr, hbne]) ht

/-- C3 witness: the spec's own scenario — catalog of four units, the first
already applied, boundary `...003`; the returned unit `...002` satisfies all
three conclusions. -/
theorem C3_up_plan_sound_witness :
    "20230922034400002_create_posts_table.apply.sql"
        ∉ ["20230922034400001_create_users_table.apply.sql"] ∧
    jsEndsWith "20230922034400002_create_posts_table.apply.sql"
        APPLY_MIGRATION_FILE_SUFFIX = true ∧
    ∀ b, (some "20230922034400003" : Option String) = some b → b ≠ "" →
      jsLeString (keyOf "20230922034400002_create_posts_table.apply.sql") b = true :=
  C3_up_plan_sound
    ["20230922034400001_create_users_table.apply.sql",
     "20230922034400002_create_posts_table.apply.sql",
     "20230922034400003_create_comments_table.apply.sql",
     "20230922034400004_create_likes_table.apply.sql"]
    ["20230922034400001_create_users_table.apply.sql"]
    (some "20230922034400003")
    "20230922034400002_create_posts_table.apply.sql"
    (by decide)

/-! ## C4: where the ascending order comes from -/

/-- C4 counterexample: `determineMigrationsToApply` does NOT re-sort — on an
unsorted catalog it returns the filenames in catalog order, which here is not
ascending (the first returned filename is strictly greater than the second). -/
theorem C4_resolver_output_unsorted_counterexample :
    determineMigrationsToApply
        ["20230102000000_b.apply.sql", "20230101000000_a.apply.sql"] [] none
      = ["20230102000000_b.apply.sql", "20230101000000_a.apply.sql"] ∧
    jsLeString "20230102000000_b.apply.sql" "20230101000000_a.apply.sql" = false := by
  constructor
  · rfl
  · rfl

/-- C4 (amended): the resolver preserves catalog order (its output is a
sublist of its input); the ascending order is instead established by
`applyMigrations`, which sorts the plan ascending by filename
(`localeCompare`) before applying, so the order in which units execute is
ascending and independent of the directory scan order. -/
theorem C4_applyMigrations_sorts_plan (allMigrations appliedMigrations : List String)
    (migrationTimestamp : Option String) :
    List.Sublist
      (determineMigrationsToApply allMigrations appliedMigrations migrationTimestamp)
      allMigrations ∧
    List.Pairwise (fun a b => jsLeString a b = true)
      (jsSortStrings (determineMigrationsToApply allMigrations appliedMigrations
        migrationTimestamp)) ∧
    List.Perm
      (jsSortStrings (determineMigrationsToApply allMigrations appliedMigrations
        migrationTimestamp))
      (determineMigrationsToApply allMigrations appliedMigrations migrationTimestamp) := by
  refine ⟨List.filter_sublist _, ?_, jsSortBy_perm _ _⟩
  exact jsSortBy_pairwise _ jsLeString_total (fun h1 h2 => jsLeString_trans h1 h2) _

/-! ## C6: the down boundary comparison is numeric, not string -/

/-- C6 counterexample: with catalog `["9_a.revert.sql"]` and boundary `"10"`,
the key `"9"` is ≥ `"10"` under JS STRING comparison, yet the resolver drops
the filename — because the code compares `Number("9") >= Number("10")`,
which is false.  So the comparison is numeric, not a key-string comparison. -/
theorem C6_boundary_comparison_counterexample :
    determineMigrationsToRevert ["9_a.revert.sql"] (some "10") = .ok [] ∧
    jsLeString "10" (keyOf "9_a.revert.sql") = true := by
  constructor
  · rfl
  · rfl

/-- C6 (amended): for every list of revert filenames all carrying the revert
suffix and every nonempty boundary string, `determineMigrationsToRevert`
retains exactly those filenames whose timestamp key (the prefix before the
first underscore) is ≥ the boundary under JS NUMERIC comparison
(`Number(key) >= Number(boundary)`, false on NaN); for same-width zero-padded
digit keys this coincides with string comparison, but in general it is not a
string comparison. -/
theorem C6_boundary_filter_is_numeric (revertMigrations : List String) (b : String)
    (hsuf : ∀ f ∈ revertMigrations, jsEndsWith f ".revert.sql" = true) (hb : b ≠ "") :
    determineMigrationsToRevert revertMigrations (some b)
      = .ok (revertMigrations.filter (fun m => jsNumGe (keyOf m) b)) := by
  unfold determineMigrationsToRevert
  rw [if_pos (by rw [List.all_eq_true]; exact hsuf),
    if_pos (by simp [truthyStr, hb])]
  rfl

/-- C6 witness: two well-formed revert filenames around a 14-digit boundary. -/
theorem C6_boundary_filter_is_numeric_witness :
    determineMigrationsToRevert
        ["20230922034400003_c.revert.sql", "20230922034400001_a.revert.sql"]
        (some "20230922034400002")
      = .ok (["20230922034400003_c.revert.sql", "20230922034400001_a.revert.sql"].filter
          (fun m => jsNumGe (keyOf m) "20230922034400002")) :=
  C6_boundary_filter_is_numeric
    ["20230922034400003_c.revert.sql", "20230922034400001_a.revert.sql"]
    "20230922034400002" (by decide) (by decide)

/-! ## C7: the revert-suffix self-check fails loudly, before any mutation -/

/-- C7: if ANY filename handed to `determineMigrationsToRevert` lacks the
`.revert.sql` suffix — including ones the boundary filter would have dropped,
since the suffix check runs over the whole list before any filtering — the
resolver returns the specific consistency error rather than filtering the
name out; and `revertMigration` on such a filename throws that same error with
the connection completely untouched (same state, same query log: no query was
issued, hence no database mutation). -/
theorem C7_suffix_self_check {σ : Type}
    (revertMigrations : List String) (migrationTimestamp : Option String) (f : String)
    (hmem : f ∈ revertMigrations) (hbad : jsEndsWith f ".revert.sql" = false)
    (env : Env σ) (c : Conn σ) :
    determineMigrationsToRevert revertMigrations migrationTimestamp
      = .error invalidRevertMsg ∧
    revertMigration env f c = .error invalidRevertMsg c := by
  constructor
  · unfold determineMigrationsToRevert
    rw [if_neg]
    intro hall
    rw [List.all_eq_true] at hall
    have h := hall f hmem
    rw [hbad] at h
    simp at h
  · unfold revertMigration
    have : jsEndsWith f REVERT_MIGRATION_FILE_SUFFIX = false := hbad
    rw [this]
    rfl

/-- C7 witness: an apply-suffixed filename reaches the resolver with a
boundary that would have excluded it anyway, and `revertMigration` on it
leaves a concrete connection untouched. -/
theorem C7_suffix_self_check_witness :
    determineMigrationsToRevert ["20230101000000_x.apply.sql"] (some "99999999999999")
      = .error invalidRevertMsg ∧
    revertMigration envC7 "20230101000000_x.apply.sql" connC7
      = .error invalidRevertMsg connC7 :=
  C7_suffix_self_check ["20230101000000_x.apply.sql"] (some "99999999999999")
    "20230101000000_x.apply.sql" (by decide) (by decide) envC7 connC7

/-! ## C9: bootstrap is idempotent -/

/-- C9: `handleSetup` is idempotent.  For ANY database contents, after a first
call the second call returns successfully and its only effect on the
connection is appending the read-only information_schema probe to the query
log: the database (bookkeeping table and schema alike) is exactly as the first
call left it, and no table-creating statement is issued. -/
theorem C9_setup_idempotent {σ : Type} (env : Env σ) (d : Db σ)
    (lg : List (String × List String)) :
    handleSetup env (finalConn (handleSetup env { db := d, txn := none, log := lg }))
      = .ok ()
          { finalConn (handleSetup env { db := d, txn := none, log := lg }) with
            log := (finalConn (handleSetup env { db := d, txn := none, log := lg })).log
              ++ [(sqlTableExists, [])] } := by
  obtain ⟨mt, s⟩ := d
  cases mt with
  | none => rfl
  | some rows => rfl

/-! ## C1: applyMigration is NOT atomic (code bug) -/

set_option maxRecDepth 4000 in
/-- C1 (code-bug evidence): `executeSQL` opens and COMMITs its own
transaction; nested inside `executeInTransaction`'s `BEGIN`, that inner
`COMMIT` commits the outer transaction under PostgreSQL semantics.  Concretely:
applying a migration whose body succeeds but whose filename is 256 characters
(so the `VARCHAR(255)` bookkeeping INSERT fails) propagates the error — yet
leaves the body's schema change COMMITTED with no bookkeeping row, instead of
rolling both back. -/
theorem C1_applyMigration_not_atomic :
    isError (applyMigration envC1 longApplyName
        (freshConn { migrationsTable := some [], schemaState := [] })) = true ∧
    (finalConn (applyMigration envC1 longApplyName
        (freshConn { migrationsTable := some [], schemaState := [] }))).db
      = { migrationsTable := some [],
          schemaState := ["ALTER TABLE t ADD COLUMN c INT"] } ∧
    ({ migrationsTable := some [],
       schemaState := ["ALTER TABLE t ADD COLUMN c INT"] } : Db (List String))
      ≠ { migrationsTable := some [], schemaState := [] } := by
  refine ⟨by decide, by decide, by decide⟩

/-! ## C2: revertMigration is NOT atomic (code bug) -/

/-- C2 (code-bug evidence): `revertMigration` runs the revert body and the
bookkeeping DELETE through two SEPARATE `executeSQL` calls, each its own
transaction.  Concretely: a revert whose body succeeds but whose DELETE fails
(here: no `migrations` table) propagates the error — yet leaves the body's
schema change COMMITTED, instead of rolling both back. -/
theorem C2_revertMigration_not_atomic :
    isError (revertMigration envC2 "20230101000000_x.revert.sql"
        (freshConn { migrationsTable := none, schemaState := [] })) = true ∧
    (finalConn (revertMigration envC2 "20230101000000_x.revert.sql"
        (freshConn { migrationsTable := none, schemaState := [] }))).db
      = { migrationsTable := none, schemaState := ["DROP TABLE t"] } ∧
    ({ migrationsTable := none, schemaState := ["DROP TABLE t"] } : Db (List String))
      ≠ { migrationsTable := none, schemaState := [] } := by
  refine ⟨rfl, rfl, ?_⟩
  intro h
  cases h

/-! ## C5: the down command drops its boundary argument (code bug) -/

/-- C5 (code-bug evidence): `main` dispatches `down` as `handleDown(client)`,
passing NO boundary, so the CLI's boundary argument is ignored.  Concretely:
with one applied unit whose key `20220101000000` is strictly BELOW the
boundary `20230101000000`, running `down 20230101000000` nevertheless reverts
it — its bookkeeping row is deleted and its revert body committed — although
the claim requires units below the boundary to remain applied. -/
theorem C5_down_boundary_ignored :
    jsLeString "20220101000000" "20230101000000" = true ∧
    (finalConn (mainRun envC5 ["down", "20230101000000"]
        (freshConn { migrationsTable := some ["20220101000000_old.apply.sql"],
                     schemaState := [] }))).db
      = { migrationsTable := some [], schemaState := ["DROP TABLE old"] } := by
  constructor
  · rfl
  · rfl


/-! ## Helper lemmas: first-occurrence replacement -/

/-- A pattern occurring nowhere leaves `replaceFirstChars` as the identity. -/
theorem replaceFirstChars_of_countSub_zero (pat rep : List Char) :
    ∀ s, countSub pat s = 0 → replaceFirstChars pat rep s = s := by
  intro s
  induction s with
  | nil => intro _; rfl
  | cons c rest ih =>
    intro h
    unfold countSub at h
    unfold replaceFirstChars
    by_cases hpre : pat.isPrefixOf (c :: rest) = true
    · rw [hpre] at h; simp at h
    · rw [Bool.not_eq_true] at hpre
      rw [hpre]
      simp only [if_false, Bool.false_eq_true]
      rw [hpre] at h
      simp only [if_false, Bool.false_eq_true, Nat.zero_add] at h
      rw [ih h]

/-- An occurrence of a nonempty pattern at any position makes the count
positive. -/
theorem countSub_pos_of_occurs (pat : List Char) (hp : pat ≠ []) :
    ∀ s i, pat.isPrefixOf (s.drop i) = true → 1 ≤ countSub pat s := by
  intro s
  induction s with
  | nil =>
    intro i h
    rw [List.drop_nil] at h
    cases pat with
    | nil => exact absurd rfl hp
    | cons p ps => simp [List.isPrefixOf] at h
  | cons c rest ih =>
    intro i h
    unfold countSub
    cases i with
    | zero =>
      rw [List.drop_zero] at h
      rw [if_pos h]
      omega
    | succ i =>
      rw [List.drop_succ_cons] at h
      have := ih i h
      by_cases hpre : pat.isPrefixOf (c :: rest) = true
      · rw [if_pos hpre]; omega
      · rw [Bool.not_eq_true] at hpre
        rw [hpre, if_neg Bool.false_ne_true]
        omega

/-- Two occurrences of a nonempty pattern at distinct positions push the count
to at least two. -/
theorem countSub_two_of_occurs (pat : List Char) (hp : pat ≠ []) :
    ∀ s i j, i < j → pat.isPrefixOf (s.drop i) = true →
      pat.isPrefixOf (s.drop j) = true → 2 ≤ countSub pat s := by
  intro s
  induction s with
  | nil =>
    intro i j _ _ hj
    rw [List.drop_nil] at hj
    cases pat with
    | nil => exact absurd rfl hp
    | cons p ps => simp [List.isPrefixOf] at hj
  | cons c rest ih =>
    intro i j hij hi hj
    unfold countSub
    cases i with
    | zero =>
      rw [List.drop_zero] at hi
      obtain ⟨j', rfl⟩ : ∃ j', j = j' + 1 := ⟨j - 1, by omega⟩
      rw [List.drop_succ_cons] at hj
      have h1 := countSub_pos_of_occurs pat hp rest j' hj
      rw [if_pos hi]
      omega
    | succ i =>
      obtain ⟨j', rfl⟩ : ∃ j', j = j' + 1 := ⟨j - 1, by omega⟩
      rw [List.drop_succ_cons] at hi hj
      have h2 := ih i j' (by omega) hi hj
      by_cases hpre : pat.isPrefixOf (c :: rest) = true
      · rw [if_pos hpre]; omega
      · rw [Bool.not_eq_true] at hpre
        rw [hpre, if_neg Bool.false_ne_true]
        omega

/-- The pattern occurs at the start of `pat ++ b` appended after `a`. -/
theorem occurs_at_append_left (pat a b : List Char) :
    pat.isPrefixOf ((a ++ (pat ++ b)).drop a.length) = true := by
  rw [List.drop_left]
  exact List.isPrefixOf_iff_prefix.mpr (List.prefix_append pat b)

/-- Replacing the first occurrence when no occurrence starts before the
decomposition point rewrites exactly that occurrence. -/
theorem replaceFirstChars_append (pat rep : List Char) (hp : pat ≠ []) :
    ∀ a b, (∀ i, i < a.length → pat.isPrefixOf ((a ++ (pat ++ b)).drop i) = false) →
      replaceFirstChars pat rep (a ++ (pat ++ b)) = a ++ (rep ++ b) := by
  intro a
  induction a with
  | nil =>
    intro b _
    simp only [List.nil_append]
    cases pat with
    | nil => exact absurd rfl hp
    | cons p ps =>
      show replaceFirstChars (p :: ps) rep ((p :: ps) ++ b) = rep ++ b
      rw [List.cons_append, replaceFirstChars]
      rw [if_pos (by
        rw [← List.cons_append]
        exact List.isPrefixOf_iff_prefix.mpr (List.prefix_append (p :: ps) b))]
      rw [← List.cons_append, List.drop_left]
  | cons x a ih =>
    intro b h
    have h0 : pat.isPrefixOf (x :: (a ++ (pat ++ b))) = false := by
      have := h 0 (by simp)
      rwa [List.drop_zero, List.cons_append] at this
    rw [List.cons_append, replaceFirstChars, if_neg (by rw [h0]; exact Bool.false_ne_true)]
    rw [ih b (fun i hi => by
      have := h (i + 1) (by simpa using Nat.succ_lt_succ hi)
      rwa [List.cons_append, List.drop_succ_cons] at this)]
    rfl

/-- When the pattern occurs exactly once, replacing rewrites the (unique)
exhibited occurrence. -/
theorem replaceFirstChars_of_countSub_one (pat rep a b : List Char) (hp : pat ≠ [])
    (hcount : countSub pat (a ++ (pat ++ b)) = 1) :
    replaceFirstChars pat rep (a ++ (pat ++ b)) = a ++ (rep ++ b) := by
  apply replaceFirstChars_append pat rep hp
  intro i hi
  by_contra hocc
  rw [Bool.not_eq_false] at hocc
  have h2 := countSub_two_of_occurs pat hp (a ++ (pat ++ b)) i a.length hi hocc
    (occurs_at_append_left pat a b)
  omega

/-- A short self-overlap of `.revert.sql` is impossible: the string has no
nontrivial border. -/
theorem revertSql_no_border (k : Nat) (h1 : 1 ≤ k) (h7 : k ≤ 7) :
    List.drop k ".revert.sql".data ≠ List.take (11 - k) ".revert.sql".data := by
  interval_cases k <;> decide

/-- A short self-overlap of `.revert.` of length other than one is
impossible. -/
theorem revertDot_no_border (k : Nat) (h1 : 1 ≤ k) (h6 : k ≤ 6) :
    List.drop k ".revert.".data ≠ List.take (8 - k) ".revert.".data := by
  interval_cases k <;> decide



/-- In `a ++ ".revert.sql"`, no occurrence of `.revert.sql` can start before
position `|a|`, provided `.revert.` does not occur anywhere in the original
name `a ++ ".apply.sql"`. -/
theorem no_early_revertSql (a : List Char)
    (h0 : countSub ".revert.".data (a ++ ".apply.sql".data) = 0) :
    ∀ i, i < a.length →
      ".revert.sql".data.isPrefixOf ((a ++ (".revert.sql".data ++ [])).drop i) = false := by
  intro i hi
  by_contra hocc
  rw [Bool.not_eq_false, List.append_nil] at hocc
  have hdrop : (a ++ ".revert.sql".data).drop i = a.drop i ++ ".revert.sql".data := by
    rw [List.drop_append_eq_append_drop, (by omega : i - a.length = 0), List.drop_zero]
  rw [hdrop] at hocc
  have hlen : (a.drop i).length = a.length - i := List.length_drop i a
  have hpre : ".revert.sql".data <+: a.drop i ++ ".revert.sql".data :=
    List.isPrefixOf_iff_prefix.mp hocc
  by_cases hk : 8 ≤ a.length - i
  · -- the 8-character segment `.revert.` then sits entirely inside `a`,
    -- so it already occurs in the original name: contradiction with `h0`
    have hpre8 : ".revert.".data <+: a.drop i ++ ".revert.sql".data :=
      List.IsPrefix.trans (by decide) hpre
    have htake : ".revert.".data = (a.drop i ++ ".revert.sql".data).take 8 := by
      have h := List.prefix_iff_eq_take.mp hpre8
      simpa using h
    have htake2 : (a.drop i ++ ".revert.sql".data).take 8 = (a.drop i).take 8 := by
      rw [List.take_append_eq_append_take, (by omega : 8 - (a.drop i).length = 0),
        List.take_zero, List.append_nil]
    have hpat_t : ".revert.".data <+: a.drop i := by
      rw [htake, htake2]; exact List.take_prefix 8 (a.drop i)
    have hoccf : ".revert.".data.isPrefixOf ((a ++ ".apply.sql".data).drop i) = true := by
      rw [List.isPrefixOf_iff_prefix, List.drop_append_eq_append_drop,
        (by omega : i - a.length = 0), List.drop_zero]
      exact List.IsPrefix.trans hpat_t (List.prefix_append (a.drop i) _)
    have := countSub_pos_of_occurs ".revert.".data (by decide) _ i hoccf
    omega
  · -- a straddling occurrence would force a nontrivial border of `.revert.sql`
    have htake : ".revert.sql".data = (a.drop i ++ ".revert.sql".data).take 11 := by
      have h := List.prefix_iff_eq_take.mp hpre
      simpa using h
    have h3 := htake
    rw [List.take_append_eq_append_take,
      List.take_of_length_le (by omega : (a.drop i).length ≤ 11)] at h3
    have h4 : List.drop (a.drop i).length ".revert.sql".data
        = ".revert.sql".data.take (11 - (a.drop i).length) := by
      conv_lhs => rw [h3]
      rw [List.drop_left]
    exact revertSql_no_border (a.drop i).length (by omega) (by omega) h4

/-- In `a ++ ".revert.sql"` (viewed as `a ++ (".revert." ++ "sql")`), no
occurrence of `.revert.` can start before position `|a|`, provided `.revert.`
does not occur anywhere in the original name `a ++ ".apply.sql"`. -/
theorem no_early_revertDot (a : List Char)
    (h0 : countSub ".revert.".data (a ++ ".apply.sql".data) = 0) :
    ∀ i, i < a.length →
      ".revert.".data.isPrefixOf ((a ++ (".revert.".data ++ "sql".data)).drop i) = false := by
  intro i hi
  by_contra hocc
  rw [Bool.not_eq_false] at hocc
  have hdrop : (a ++ (".revert.".data ++ "sql".data)).drop i
      = a.drop i ++ (".revert.".data ++ "sql".data) := by
    rw [List.drop_append_eq_append_drop, (by omega : i - a.length = 0), List.drop_zero]
  rw [hdrop] at hocc
  have hlen : (a.drop i).length = a.length - i := List.length_drop i a
  have hpre : ".revert.".data <+: a.drop i ++ (".revert.".data ++ "sql".data) :=
    List.isPrefixOf_iff_prefix.mp hocc
  have hoccf_of_t : ".revert.".data <+: a.drop i →
      2 ≤ countSub ".revert.".data (a ++ ".apply.sql".data) + 1 := by
    intro hpat_t
    have hoccf : ".revert.".data.isPrefixOf ((a ++ ".apply.sql".data).drop i) = true := by
      rw [List.isPrefixOf_iff_prefix, List.drop_append_eq_append_drop,
        (by omega : i - a.length = 0), List.drop_zero]
      exact List.IsPrefix.trans hpat_t (List.prefix_append (a.drop i) _)
    have := countSub_pos_of_occurs ".revert.".data (by decide) _ i hoccf
    omega
  by_cases hk : 8 ≤ a.length - i
  · -- fully inside `a`: the segment already occurs in the original name
    have htake : ".revert.".data = (a.drop i ++ (".revert.".data ++ "sql".data)).take 8 := by
      have h := List.prefix_iff_eq_take.mp hpre
      simpa using h
    have htake2 : (a.drop i ++ (".revert.".data ++ "sql".data)).take 8
        = (a.drop i).take 8 := by
      rw [List.take_append_eq_append_take, (by omega : 8 - (a.drop i).length = 0),
        List.take_zero, List.append_nil]
    have hpat_t : ".revert.".data <+: a.drop i := by
      rw [htake, htake2]; exact List.take_prefix 8 (a.drop i)
    have := hoccf_of_t hpat_t
    omega
  · have htake : ".revert.".data = (a.drop i ++ (".revert.".data ++ "sql".data)).take 8 := by
      have h := List.prefix_iff_eq_take.mp hpre
      simpa using h
    have h3 := htake
    rw [List.take_append_eq_append_take,
      List.take_of_length_le (by omega : (a.drop i).length ≤ 8)] at h3
    by_cases hk7 : a.length - i = 7
    · -- border of length one: `a` must end in ".revert", so `.revert.` occurs
      -- in the original name right before its ".apply.sql" suffix
      have ht7 : a.drop i = ".revert".data := by
        have htake7 : (".revert.".data).take 7
            = (a.drop i ++ (".revert.".data ++ "sql".data).take (8 - (a.drop i).length)).take 7 := by
          rw [← h3]
        rw [List.take_append_eq_append_take,
          List.take_of_length_le (by omega : (a.drop i).length ≤ 7),
          (by omega : 7 - (a.drop i).length = 0), List.take_zero, List.append_nil] at htake7
        rw [← htake7]
        decide
      have hpat_f : ".revert.".data <+: a.drop i ++ ".apply.sql".data := by
        rw [ht7]
        decide
      have hoccf : ".revert.".data.isPrefixOf ((a ++ ".apply.sql".data).drop i) = true := by
        rw [List.isPrefixOf_iff_prefix, List.drop_append_eq_append_drop,
          (by omega : i - a.length = 0), List.drop_zero]
        exact hpat_f
      have := countSub_pos_of_occurs ".revert.".data (by decide) _ i hoccf
      omega
    · -- any other short overlap would force a nontrivial border of `.revert.`
      have hL8 : (".revert.".data).length = 8 := by decide
      have h3' := h3
      rw [List.take_append_eq_append_take,
        (by rw [hL8]; omega : 8 - (a.drop i).length - (".revert.".data).length = 0),
        List.take_zero, List.append_nil] at h3'
      have h4 : List.drop (a.drop i).length ".revert.".data
          = ".revert.".data.take (8 - (a.drop i).length) := by
        conv_lhs => rw [h3']
        rw [List.drop_left]
      exact revertDot_no_border (a.drop i).length (by omega) (by omega) h4

/-! ## C10: the apply/revert filename round trip -/

/-- C10 counterexample: `"a.apply.b"` contains `.apply.` exactly once and
`.revert.` not at all, yet the round trip (derive the revert name, then map
back by replacing `.revert.sql` with `.apply.sql`, as `revertMigration` does)
returns `"a.revert.b"`, not the original — the backward substitution finds no
`.revert.sql` to replace.  The claimed identity therefore fails without a
condition tying the occurrence to the filename suffix. -/
theorem C10_roundtrip_counterexample :
    countSub ".apply.".data "a.apply.b".data = 1 ∧
    countSub ".revert.".data "a.apply.b".data = 0 ∧
    jsReplace (appliedToRevertMigration "a.apply.b") ".revert.sql" ".apply.sql"
      = "a.revert.b" ∧
    ("a.revert.b" : String) ≠ "a.apply.b" := by
  refine ⟨by decide, by decide, by decide, by decide⟩

/-- C10 (amended): for every filename that ends with `.apply.sql`, in which
`.apply.` occurs exactly once (hence only as part of that suffix) and
`.revert.` does not occur, deriving the revert name with
`appliedToRevertMigration` and then replacing `.revert.sql` with `.apply.sql`
(the derivation inside `revertMigration`) restores the original filename.
Both substitutions replace only the first occurrence, so without these
conditions the identity can fail. -/
theorem C10_suffix_roundtrip (f : String)
    (he : jsEndsWith f ".apply.sql" = true)
    (h1 : countSub ".apply.".data f.data = 1)
    (h0 : countSub ".revert.".data f.data = 0) :
    jsReplace (appliedToRevertMigration f) ".revert.sql" ".apply.sql" = f := by
  have hcat : ".apply.sql".data = ".apply.".data ++ "sql".data := by decide
  obtain ⟨a, ha⟩ : ∃ a, f.data = a ++ (".apply.".data ++ "sql".data) := by
    unfold jsEndsWith at he
    rw [List.isSuffixOf_iff_suffix] at he
    obtain ⟨a, ha⟩ := he
    exact ⟨a, by rw [← ha, hcat]⟩
  have h1' : countSub ".apply.".data (a ++ (".apply.".data ++ "sql".data)) = 1 := by
    rw [← ha]; exact h1
  have h0' : countSub ".revert.".data (a ++ ".apply.sql".data) = 0 := by
    rw [hcat, ← ha]; exact h0
  have hfwd : (appliedToRevertMigration f).data = a ++ (".revert.".data ++ "sql".data) := by
    show (jsReplace f ".apply." ".revert.").data = _
    unfold jsReplace
    show replaceFirstChars ".apply.".data ".revert.".data f.data = _
    rw [ha]
    exact replaceFirstChars_of_countSub_one _ _ _ _ (by decide) h1'
  have hcat2 : ".revert.".data ++ "sql".data = ".revert.sql".data ++ ([] : List Char) := by
    decide
  apply String.ext
  show replaceFirstChars ".revert.sql".data ".apply.sql".data
      (appliedToRevertMigration f).data = f.data
  rw [hfwd, hcat2,
    replaceFirstChars_append _ _ (by decide) a [] (no_early_revertSql a h0'),
    List.append_nil, ha, hcat]

/-- C10 witness: a generated-format filename round-trips. -/
theorem C10_suffix_roundtrip_witness :
    jsReplace (appliedToRevertMigration "20230101000000_x.apply.sql")
      ".revert.sql" ".apply.sql" = "20230101000000_x.apply.sql" :=
  C10_suffix_roundtrip "20230101000000_x.apply.sql" (by decide) (by decide) (by decide)



/-! ## Helper lemmas for the down plan (C8) -/

/-- `takeWhile` over an append stops inside the first part whenever some
element of the first part fails the predicate. -/
theorem takeWhile_append_of_exists_not (p : Char → Bool) :
    ∀ (x z : List Char), (∃ c ∈ x, p c = false) →
      (x ++ z).takeWhile p = x.takeWhile p := by
  intro x
  induction x with
  | nil =>
    intro z h
    obtain ⟨c, hc, -⟩ := h
    cases hc
  | cons c x ih =>
    intro z h
    rw [List.cons_append, List.takeWhile_cons, List.takeWhile_cons]
    by_cases hp : p c = true
    · rw [if_pos hp, if_pos hp]
      obtain ⟨d, hd, hdp⟩ := h
      rcases List.mem_cons.mp hd with rfl | hd'
      · rw [hp] at hdp; cases hdp
      · rw [ih z ⟨d, hd', hdp⟩]
    · rw [Bool.not_eq_true] at hp
      rw [hp, if_neg Bool.false_ne_true, if_neg Bool.false_ne_true]

/-- For a well-formed apply name, the derived revert name maps back to the
original under the `.revert.` → `.apply.` substitution. -/
theorem backmap_of_wellFormed (f : String) (hwf : wellFormedApplyName f) :
    jsReplace (appliedToRevertMigration f) ".revert." ".apply." = f := by
  obtain ⟨he, h1, h0, -⟩ := hwf
  have hcat : ".apply.sql".data = ".apply.".data ++ "sql".data := by decide
  obtain ⟨a, ha⟩ : ∃ a, f.data = a ++ (".apply.".data ++ "sql".data) := by
    unfold jsEndsWith at he
    rw [List.isSuffixOf_iff_suffix] at he
    obtain ⟨a, ha⟩ := he
    exact ⟨a, by rw [← ha, hcat]⟩
  have h1' : countSub ".apply.".data (a ++ (".apply.".data ++ "sql".data)) = 1 := by
    rw [← ha]; exact h1
  have h0' : countSub ".revert.".data (a ++ ".apply.sql".data) = 0 := by
    rw [hcat, ← ha]; exact h0
  have hfwd : (appliedToRevertMigration f).data
      = a ++ (".revert.".data ++ "sql".data) := by
    show (jsReplace f ".apply." ".revert.").data = _
    unfold jsReplace
    show replaceFirstChars ".apply.".data ".revert.".data f.data = _
    rw [ha]
    exact replaceFirstChars_of_countSub_one _ _ _ _ (by decide) h1'
  apply String.ext
  show replaceFirstChars ".revert.".data ".apply.".data
      (appliedToRevertMigration f).data = f.data
  rw [hfwd,
    replaceFirstChars_append _ _ (by decide) a "sql".data (no_early_revertDot a h0'), ha]

/-- For a well-formed apply name, deriving the revert name does not change the
timestamp key: the substitution happens after the first underscore. -/
theorem keyOf_appliedToRevert (f : String) (hwf : wellFormedApplyName f) :
    keyOf (appliedToRevertMigration f) = keyOf f := by
  obtain ⟨he, h1, h0, hu⟩ := hwf
  have hcat : ".apply.sql".data = ".apply.".data ++ "sql".data := by decide
  obtain ⟨a, ha⟩ : ∃ a, f.data = a ++ (".apply.".data ++ "sql".data) := by
    unfold jsEndsWith at he
    rw [List.isSuffixOf_iff_suffix] at he
    obtain ⟨a, ha⟩ := he
    exact ⟨a, by rw [← ha, hcat]⟩
  have h1' : countSub ".apply.".data (a ++ (".apply.".data ++ "sql".data)) = 1 := by
    rw [← ha]; exact h1
  have hfwd : (appliedToRevertMigration f).data
      = a ++ (".revert.".data ++ "sql".data) := by
    show (jsReplace f ".apply." ".revert.").data = _
    unfold jsReplace
    show replaceFirstChars ".apply.".data ".revert.".data f.data = _
    rw [ha]
    exact replaceFirstChars_of_countSub_one _ _ _ _ (by decide) h1'
  have hua : ∃ c ∈ a, (c != '_') = false := by
    have hmem : '_' ∈ f.data := by
      rw [List.contains] at hu
      exact List.elem_iff.mp hu
    rw [ha] at hmem
    rcases List.mem_append.mp hmem with h | h
    · exact ⟨'_', h, by decide⟩
    · rcases List.mem_append.mp h with h | h
      · exact absurd h (by decide)
      · exact absurd h (by decide)
  unfold keyOf
  rw [hfwd, ha]
  congr 1
  rw [takeWhile_append_of_exists_not _ a _ hua, takeWhile_append_of_exists_not _ a _ hua]

/-! ## C8: shape of the down plan -/

/-- C8 counterexample: for the applied list `["0_a.revert.x.apply.sql"]`
(whose slug hides a `.revert.` segment) and no boundary, the down plan is
`["0_a.revert.x.revert.sql"]`, but because both substitutions replace only
the FIRST occurrence, mapping it back via `.revert.` → `.apply.` yields
`"0_a.apply.x.revert.sql"`, which is NOT an element of the applied list — so
the plan's image under the back-substitution is not a subset of the applied
list for arbitrary applied filenames. -/
theorem C8_down_plan_counterexample :
    determineMigrationsToRevert
        ((sortMigrationsInDescendingOrder ["0_a.revert.x.apply.sql"]).map
          appliedToRevertMigration) none
      = .ok ["0_a.revert.x.revert.sql"] ∧
    jsReplace "0_a.revert.x.revert.sql" ".revert." ".apply."
      = "0_a.apply.x.revert.sql" ∧
    ("0_a.apply.x.revert.sql" : String) ∉ ["0_a.revert.x.apply.sql"] := by
  refine ⟨rfl, by decide, by decide⟩

/-- C8 (amended): for every applied list of WELL-FORMED apply filenames
(ending in `.apply.sql`, with a unique `.apply.` segment, no `.revert.`
segment, and an underscore after the key — the shape this tool generates) and
any boundary, every filename of the plan computed as `handleDown` computes it
(sort descending, map `.apply.` → `.revert.`, run the resolver with the
boundary filter) maps back under the `.revert.` → `.apply.` substitution to
an element of the applied list, and the plan is ordered descending by
timestamp key. -/
theorem C8_down_plan_subset_desc (appliedMigrations : List String) (mt : Option String)
    (hwf : ∀ f ∈ appliedMigrations, wellFormedApplyName f)
    (plan : List String)
    (hplan : determineMigrationsToRevert
        ((sortMigrationsInDescendingOrder appliedMigrations).map appliedToRevertMigration)
        mt = .ok plan) :
    (∀ g ∈ plan, jsReplace g ".revert." ".apply." ∈ appliedMigrations) ∧
    List.Pairwise (fun a b => jsLeString (keyOf b) (keyOf a) = true) plan := by
  have hperm : List.Perm (sortMigrationsInDescendingOrder appliedMigrations)
      appliedMigrations := jsSortBy_perm _ _
  have hsub : List.Sublist plan
      ((sortMigrationsInDescendingOrder appliedMigrations).map appliedToRevertMigration) := by
    unfold determineMigrationsToRevert at hplan
    split at hplan
    · split at hplan
      · cases hplan
        exact List.filter_sublist _
      · cases hplan
        exact List.Sublist.refl _
    · cases hplan
  constructor
  · intro g hg
    have hgm : g ∈ (sortMigrationsInDescendingOrder appliedMigrations).map
        appliedToRevertMigration := List.Sublist.mem hg hsub
    obtain ⟨f, hf, rfl⟩ := List.mem_map.mp hgm
    have hfa : f ∈ appliedMigrations := hperm.mem_iff.mp hf
    rw [backmap_of_wellFormed f (hwf f hfa)]
    exact hfa
  · have hpair : List.Pairwise (fun a b => jsLeString (keyOf b) (keyOf a) = true)
        (sortMigrationsInDescendingOrder appliedMigrations) := by
      apply jsSortBy_pairwise
      · intro a b
        rcases jsLeString_total (keyOf b) (keyOf a) with h | h
        · exact Or.inl h
        · exact Or.inr h
      · intro a b c h1 h2
        exact jsLeString_trans h2 h1
    have hmap : List.Pairwise (fun a b => jsLeString (keyOf b) (keyOf a) = true)
        ((sortMigrationsInDescendingOrder appliedMigrations).map
          appliedToRevertMigration) := by
      rw [List.pairwise_map]
      refine List.Pairwise.imp_of_mem ?_ hpair
      intro x y hx hy hxy
      rw [keyOf_appliedToRevert x (hwf x (hperm.mem_iff.mp hx)),
        keyOf_appliedToRevert y (hwf y (hperm.mem_iff.mp hy))]
      exact hxy
    exact List.Pairwise.sublist hsub hmap

/-- C8 witness: two generated-format applied filenames, no boundary. -/
theorem C8_down_plan_subset_desc_witness :
    (∀ g ∈ ["20230102000000_b.revert.sql", "20230101000000_a.revert.sql"],
        jsReplace g ".revert." ".apply."
          ∈ ["20230101000000_a.apply.sql", "20230102000000_b.apply.sql"]) ∧
    List.Pairwise (fun a b => jsLeString (keyOf b) (keyOf a) = true)
      ["20230102000000_b.revert.sql", "20230101000000_a.revert.sql"] :=
  C8_down_plan_subset_desc
    ["20230101000000_a.apply.sql", "20230102000000_b.apply.sql"] none
    (by
      intro f hf
      fin_cases hf <;> exact ⟨by decide, by decide, by decide, by decide⟩)
    ["20230102000000_b.revert.sql", "20230101000000_a.revert.sql"]
    rfl


end SqlMigrate
